import Mathlib

/-!
# Shallow embedding of `src/contracts/ReFi_Grant_Fhe.sol` (contract `ReFiGrantFHE`)

Addresses, batch ids, request ids, timestamps and cooldowns are `Nat`.
Solidity mappings (default-zero storage) are total functions out of `Nat`;
`upd` is the single point update used by storage writes.

External capabilities, per the spec's interface section (out-of-scope
collaborators, modelled only by the interface the core uses):
* `euint32` ciphertext handles are the symbolic type `EH`: `EH.uninit` is the
  zero/uninitialized sentinel (`euint32(0)`, the mapping default;
  `FHE.isInitialized` is `· ≠ EH.uninit`), `EH.ext n` an externally created
  input handle, and `EH.mul a b` the handle returned by the engine's
  homomorphic multiply `FHE.fheMul` on operands `a` and `b` (always a fresh,
  initialized handle, never the sentinel). `FHE.toBytes32` is injective, so
  handles serialize as themselves.
* `keccak256(abi.encode(cts, address(this)))` is the free constructor
  `B32.hash cts self`; `B32.zero` is `bytes32(0)`, the default storage value
  of a never-written `stateHash`. Constructor freeness models collision
  resistance (a hash of real data never equals the zero word, and two hashes
  agree only on equal preimages).
* `FHE.requestDecryption` (oracle bridge) returns a fresh, never-reused
  request id; modelled by the `nextRequestId` counter carried in the state.
* `FHE.checkSignatures` is an external verdict on `(cleartexts, proof)`;
  each callback invocation carries it as the boolean `sigOk`.

Each external function returns `Except Err ContractState`: `Except.error`
is a Solidity `revert`, which rolls back every storage write of the call,
so the caller keeps the pre-call state (this is the all-or-nothing /
atomicity semantics; an erroring call changes nothing by construction).
`msg.sender` and `block.timestamp` are explicit `caller` / `now` arguments.
-/

/-- Symbolic `euint32` ciphertext handle (external FHE engine capability). -/
inductive EH where
  | uninit : EH
  | ext (n : Nat) : EH
  | mul (a b : EH) : EH
deriving DecidableEq, Repr

/-- `bytes32` values that occur as state hashes: the zero word (storage
default) or `keccak256(abi.encode(cts, address(this)))`. -/
inductive B32 where
  | zero : B32
  | hash (cts : List EH) (self : Nat) : B32
deriving DecidableEq, Repr

/-- `struct GrantApplication { euint32 encryptedAmount; euint32 encryptedScore; euint32 encryptedGrantAmount; }` -/
structure GrantApplication where
  encryptedAmount : EH
  encryptedScore : EH
  encryptedGrantAmount : EH
deriving DecidableEq, Repr

/-- Default (never-written) storage slot for an application: all handles zero. -/
def GrantApplication.dflt : GrantApplication := ⟨EH.uninit, EH.uninit, EH.uninit⟩

/-- `struct DecryptionContext { uint256 batchId; bytes32 stateHash; bool processed; }` -/
structure DecryptionContext where
  batchId : Nat
  stateHash : B32
  processed : Bool
deriving DecidableEq, Repr

/-- Default (never-written) storage slot for a decryption context. -/
def DecryptionContext.dflt : DecryptionContext := ⟨0, B32.zero, false⟩

/-- The contract's declared custom errors, plus `UnknownRequest`, which the
spec's error taxonomy names but the Solidity contract does not declare
(kept here so the spec's claim about it can be stated). -/
inductive Err where
  | NotOwner | NotProvider | PausedError | CooldownActive
  | BatchNotActive | BatchAlreadyActive | InvalidBatch
  | ReplayAttempt | StateMismatch | DecryptionFailed
  | UnknownRequest
deriving DecidableEq, Repr

/-- Point update of a default-total Solidity mapping. -/
def upd {α : Type} (f : Nat → α) (k : Nat) (v : α) : Nat → α :=
  fun x => if x = k then v else f x

theorem upd_same {α : Type} (f : Nat → α) (k : Nat) (v : α) : upd f k v k = v := by
  simp [upd]

theorem upd_ne {α : Type} (f : Nat → α) (k : Nat) (v : α) {x : Nat} (h : x ≠ k) :
    upd f k v x = f x := by
  simp [upd, h]

/-- Full storage of the `ReFiGrantFHE` contract, plus the two counters that
model the external collaborators (`nextRequestId` for the oracle bridge's
fresh request ids) and the contract's own address (`selfAddr`). -/
structure ContractState where
  owner : Nat
  isProvider : Nat → Bool
  paused : Bool
  cooldownSeconds : Nat
  lastSubmissionTime : Nat → Nat
  lastDecryptionRequestTime : Nat → Nat
  applications : Nat → GrantApplication
  batchActive : Nat → Bool
  decryptionContexts : Nat → DecryptionContext
  nextRequestId : Nat
  selfAddr : Nat

/-- The constructor: deployer becomes owner and a provider, cooldown 60s. -/
def initState (deployer self : Nat) : ContractState where
  owner := deployer
  isProvider := upd (fun _ => false) deployer true
  paused := false
  cooldownSeconds := 60
  lastSubmissionTime := fun _ => 0
  lastDecryptionRequestTime := fun _ => 0
  applications := fun _ => GrantApplication.dflt
  batchActive := fun _ => false
  decryptionContexts := fun _ => DecryptionContext.dflt
  nextRequestId := 0
  selfAddr := self

/-- `transferOwnership(address newOwner) external onlyOwner` -/
def transferOwnership (s : ContractState) (caller newOwner : Nat) :
    Except Err ContractState :=
  if caller ≠ s.owner then .error .NotOwner
  else .ok { s with owner := newOwner }

/-- `addProvider(address provider) external onlyOwner` (idempotent no-op when already a provider). -/
def addProvider (s : ContractState) (caller provider : Nat) :
    Except Err ContractState :=
  if caller ≠ s.owner then .error .NotOwner
  else if s.isProvider provider then .ok s
  else .ok { s with isProvider := upd s.isProvider provider true }

/-- `removeProvider(address provider) external onlyOwner` (idempotent no-op when not a provider). -/
def removeProvider (s : ContractState) (caller provider : Nat) :
    Except Err ContractState :=
  if caller ≠ s.owner then .error .NotOwner
  else if s.isProvider provider then
    .ok { s with isProvider := upd s.isProvider provider false }
  else .ok s

/-- `pause() external onlyOwner whenNotPaused` -/
def pause (s : ContractState) (caller : Nat) : Except Err ContractState :=
  if caller ≠ s.owner then .error .NotOwner
  else if s.paused then .error .PausedError
  else .ok { s with paused := true }

/-- `unpause() external onlyOwner` (reverts `PausedError` when already unpaused). -/
def unpause (s : ContractState) (caller : Nat) : Except Err ContractState :=
  if caller ≠ s.owner then .error .NotOwner
  else if !s.paused then .error .PausedError
  else .ok { s with paused := false }

/-- `setCooldownSeconds(uint256 newCooldownSeconds) external onlyOwner` -/
def setCooldownSeconds (s : ContractState) (caller n : Nat) :
    Except Err ContractState :=
  if caller ≠ s.owner then .error .NotOwner
  else .ok { s with cooldownSeconds := n }

/-- `openBatch(uint256 batchId) external onlyOwner` -/
def openBatch (s : ContractState) (caller batchId : Nat) :
    Except Err ContractState :=
  if caller ≠ s.owner then .error .NotOwner
  else if s.batchActive batchId then .error .BatchAlreadyActive
  else .ok { s with batchActive := upd s.batchActive batchId true }

/-- `closeBatch(uint256 batchId) external onlyOwner` -/
def closeBatch (s : ContractState) (caller batchId : Nat) :
    Except Err ContractState :=
  if caller ≠ s.owner then .error .NotOwner
  else if !s.batchActive batchId then .error .BatchNotActive
  else .ok { s with batchActive := upd s.batchActive batchId false }

/-- `submitGrantApplication(uint256 batchId, euint32 encryptedAmount, euint32 encryptedScore) external onlyProvider whenNotPaused` -/
def submitGrantApplication (s : ContractState) (caller now batchId : Nat)
    (encryptedAmount encryptedScore : EH) : Except Err ContractState :=
  if !s.isProvider caller then .error .NotProvider
  else if s.paused then .error .PausedError
  else if !s.batchActive batchId then .error .BatchNotActive
  else if now < s.lastSubmissionTime caller + s.cooldownSeconds then
    .error .CooldownActive
  else
    .ok { s with
      lastSubmissionTime := upd s.lastSubmissionTime caller now
      applications :=
        upd s.applications batchId
          ⟨encryptedAmount, encryptedScore, EH.uninit⟩ }

/-- `calculateAndRequestGrantAmountDecryption(uint256 batchId) external onlyOwner whenNotPaused`.
The Solidity body writes `lastDecryptionRequestTime` before the
`InvalidBatch` checks, but a revert rolls that write back, so in the
`Except` embedding the write appears only on the success path. -/
def calculateAndRequestGrantAmountDecryption (s : ContractState)
    (caller now batchId : Nat) : Except Err ContractState :=
  if caller ≠ s.owner then .error .NotOwner
  else if s.paused then .error .PausedError
  else if now < s.lastDecryptionRequestTime caller + s.cooldownSeconds then
    .error .CooldownActive
  else if (s.applications batchId).encryptedAmount = EH.uninit then
    .error .InvalidBatch
  else if (s.applications batchId).encryptedScore = EH.uninit then
    .error .InvalidBatch
  else
    .ok { s with
      lastDecryptionRequestTime := upd s.lastDecryptionRequestTime caller now
      applications := upd s.applications batchId
        { s.applications batchId with
            encryptedGrantAmount :=
              EH.mul (s.applications batchId).encryptedAmount
                (s.applications batchId).encryptedScore }
      decryptionContexts := upd s.decryptionContexts s.nextRequestId
        ⟨batchId,
         B32.hash
           [EH.mul (s.applications batchId).encryptedAmount
              (s.applications batchId).encryptedScore]
           s.selfAddr,
         false⟩
      nextRequestId := s.nextRequestId + 1 }

/-- `myCallback(uint256 requestId, bytes memory cleartexts, bytes memory proof) public`.
The function reads `msg.sender` nowhere; `caller` is carried to state that.
`cleartexts` is carried as the decoded `uint256`; `sigOk` is the external
`FHE.checkSignatures` verdict on `(requestId, cleartexts, proof)`. -/
def myCallback (s : ContractState) (caller requestId cleartexts : Nat)
    (sigOk : Bool) : Except Err ContractState :=
  if (s.decryptionContexts requestId).processed then .error .ReplayAttempt
  else if B32.hash
      [(s.applications
          (s.decryptionContexts requestId).batchId).encryptedGrantAmount]
      s.selfAddr
      ≠ (s.decryptionContexts requestId).stateHash then
    .error .StateMismatch
  else if sigOk then
    .ok { s with
      decryptionContexts := upd s.decryptionContexts requestId
        { s.decryptionContexts requestId with processed := true } }
  else .error .DecryptionFailed

/-- One external call into the contract, with its caller and (where the body
reads `block.timestamp`) its timestamp. -/
inductive Op where
  | transferOwnership (caller newOwner : Nat)
  | addProvider (caller provider : Nat)
  | removeProvider (caller provider : Nat)
  | pause (caller : Nat)
  | unpause (caller : Nat)
  | setCooldownSeconds (caller n : Nat)
  | openBatch (caller batchId : Nat)
  | closeBatch (caller batchId : Nat)
  | submitGrantApplication (caller now batchId : Nat) (amt score : EH)
  | calcAndRequest (caller now batchId : Nat)
  | myCallback (caller requestId cleartexts : Nat) (sigOk : Bool)

/-- Dispatch an external call to the contract function it names. -/
def applyOp (o : Op) (s : ContractState) : Except Err ContractState :=
  match o with
  | .transferOwnership c n => transferOwnership s c n
  | .addProvider c p => addProvider s c p
  | .removeProvider c p => removeProvider s c p
  | .pause c => pause s c
  | .unpause c => unpause s c
  | .setCooldownSeconds c n => setCooldownSeconds s c n
  | .openBatch c b => openBatch s c b
  | .closeBatch c b => closeBatch s c b
  | .submitGrantApplication c now b a sc => submitGrantApplication s c now b a sc
  | .calcAndRequest c now b => calculateAndRequestGrantAmountDecryption s c now b
  | .myCallback c r ct ok => myCallback s c r ct ok

/-- The state a successful call produces (the pre-state when the call reverts);
used to name intermediate states of concrete traces. -/
def runOk (o : Op) (s : ContractState) : ContractState :=
  match applyOp o s with
  | .ok s' => s'
  | .error _ => s

/-- One successful external call. -/
def SucStep (s s' : ContractState) : Prop := ∃ o : Op, applyOp o s = .ok s'

/-- Reachability by successful external calls. -/
def Reach (s s' : ContractState) : Prop := Relation.ReflTransGen SucStep s s'

/-- Bridge-freshness invariant: every request id the oracle bridge has not yet
issued still has its default (never-written) context slot. -/
def FreshInv (s : ContractState) : Prop :=
  ∀ id : Nat, s.nextRequestId ≤ id → s.decryptionContexts id = DecryptionContext.dflt

/-! ## Concrete trace states used by witnesses and counterexamples

Deployer address 0, contract address 7. The trace: deploy, open batch 1,
submit `(ext 2, ext 3)` at t = 60, derive and request disclosure at t = 60
(request id 0), then a first genuine callback. `sOver1` instead overwrites
the application after the request and before the callback. -/

def sDeploy : ContractState := initState 0 7

def sOpen1 : ContractState := runOk (.openBatch 0 1) sDeploy

def sSub1 : ContractState :=
  runOk (.submitGrantApplication 0 60 1 (.ext 2) (.ext 3)) sOpen1

def sReq1 : ContractState := runOk (.calcAndRequest 0 60 1) sSub1

def sFin1 : ContractState := runOk (.myCallback 9 0 400 true) sReq1

def sOver1 : ContractState :=
  runOk (.submitGrantApplication 0 200 1 (.ext 8) (.ext 9)) sReq1

def sPaused1 : ContractState := runOk (.pause 0) sDeploy

/-! ## Claims -/

/-- C9: `myCallback` performs no caller authorization: from equal states with
equal `(requestId, cleartexts, proof)` arguments, any two callers get the
identical outcome (the function body never reads `msg.sender`), so any
address can trigger finalization. -/
theorem myCallback_caller_independent (s : ContractState)
    (requestId cleartexts : Nat) (sigOk : Bool) (c1 c2 : Nat) :
    myCallback s c1 requestId cleartexts sigOk
      = myCallback s c2 requestId cleartexts sigOk := rfl

/-- C7: rejection order in `myCallback`: an already-processed context fails
`ReplayAttempt` before anything else (for all cleartext/proof arguments and
whatever the hash comparison would say), and an unprocessed context whose
recomputed current hash differs from the stored one fails `StateMismatch`
without proof verification being consulted. -/
theorem myCallback_check_order (s : ContractState)
    (caller requestId cleartexts : Nat) (sigOk : Bool) :
    ((s.decryptionContexts requestId).processed = true →
      myCallback s caller requestId cleartexts sigOk = .error .ReplayAttempt)
    ∧ ((s.decryptionContexts requestId).processed = false →
      B32.hash
          [(s.applications
              (s.decryptionContexts requestId).batchId).encryptedGrantAmount]
          s.selfAddr
        ≠ (s.decryptionContexts requestId).stateHash →
      myCallback s caller requestId cleartexts sigOk = .error .StateMismatch) := by
  constructor
  · intro h
    simp [myCallback, h]
  · intro h1 h2
    simp [myCallback, h1, h2]

/-- Witness for C7 at concrete states: `sFin1` has request 0 processed, so a
repeat callback replays; in the freshly deployed state request 4 is
unprocessed with a zero stored hash, so the hash comparison fails first. -/
theorem myCallback_check_order_w :
    (sFin1.decryptionContexts 0).processed = true
    ∧ myCallback sFin1 9 0 400 false = .error .ReplayAttempt
    ∧ (sDeploy.decryptionContexts 4).processed = false
    ∧ myCallback sDeploy 9 4 400 true = .error .StateMismatch := by
  refine ⟨rfl, (myCallback_check_order sFin1 9 0 400 false).1 rfl, rfl, ?_⟩
  exact (myCallback_check_order sDeploy 9 4 400 true).2 rfl (by decide)

/-- C3 counterexample: in the freshly deployed state no context was ever
persisted for request id 5 (its slot is the default), yet `myCallback`
fails with `StateMismatch`, not with the spec's `UnknownRequest` (the
contract declares no such error). -/
theorem unknown_request_cex :
    sDeploy.decryptionContexts 5 = DecryptionContext.dflt
    ∧ myCallback sDeploy 9 5 400 true = .error .StateMismatch
    ∧ myCallback sDeploy 9 5 400 true ≠ .error .UnknownRequest := by
  refine ⟨rfl, rfl, ?_⟩
  intro h
  rw [show myCallback sDeploy 9 5 400 true = .error .StateMismatch from rfl] at h
  exact absurd (Except.error.inj h) (by decide)

/-- C3 amended: a callback for a request id whose context slot was never
written (still the default record) fails `StateMismatch` for all callers,
cleartexts and proofs: the default zero `stateHash` can never equal the
recomputed keccak hash of the current handle list. -/
theorem unknown_request_rejected (s : ContractState) (requestId : Nat)
    (habsent : s.decryptionContexts requestId = DecryptionContext.dflt)
    (caller cleartexts : Nat) (sigOk : Bool) :
    myCallback s caller requestId cleartexts sigOk = .error .StateMismatch := by
  simp [myCallback, habsent, DecryptionContext.dflt]

/-- Witness for C3's amended theorem: request id 5 in the deployed state. -/
theorem unknown_request_rejected_w :
    sDeploy.decryptionContexts 5 = DecryptionContext.dflt
    ∧ myCallback sDeploy 3 5 400 false = .error .StateMismatch :=
  ⟨rfl, unknown_request_rejected sDeploy 5 rfl 3 400 false⟩

/-- C6 counterexample: cooldown is 60s, batch 1 is open, address 0 is an
allowlisted submitter with no prior recorded submission (`lastSubmissionTime`
still its default 0); its submission at t = 0 fails `CooldownActive`
(because `0 < 0 + 60`), where the claim says it succeeds. -/
theorem cooldown_t0_cex :
    sOpen1.cooldownSeconds = 60
    ∧ sOpen1.batchActive 1 = true
    ∧ sOpen1.isProvider 0 = true
    ∧ sOpen1.lastSubmissionTime 0 = 0
    ∧ submitGrantApplication sOpen1 0 0 1 (EH.ext 2) (EH.ext 3)
        = .error .CooldownActive :=
  ⟨rfl, rfl, rfl, rfl, rfl⟩

/-- C6 amended: with cooldown 60s and an open batch, a submitter with no
prior recorded submission fails `CooldownActive` at t = 0 (the default
last-action time 0 makes `now < 0 + cooldown` hold until t = 60); a
submission at t = 60 succeeds, a second at t = 90 fails `CooldownActive`,
and a third at t = 121 succeeds. -/
theorem cooldown_scenario :
    submitGrantApplication sOpen1 0 0 1 (EH.ext 2) (EH.ext 3)
        = .error .CooldownActive
    ∧ submitGrantApplication sOpen1 0 60 1 (EH.ext 2) (EH.ext 3) = .ok sSub1
    ∧ submitGrantApplication sSub1 0 90 1 (EH.ext 2) (EH.ext 3)
        = .error .CooldownActive
    ∧ ∃ s3, submitGrantApplication sSub1 0 121 1 (EH.ext 2) (EH.ext 3)
        = .ok s3 :=
  ⟨rfl, rfl, rfl,
   runOk (.submitGrantApplication 0 121 1 (.ext 2) (.ext 3)) sSub1, rfl⟩

/-- C8 counterexample: with the system paused, the owner's own call to
`pause()` fails `PausedError` (its `whenNotPaused` modifier), so not every
owner-only administrative operation remains available while paused. -/
theorem pause_while_paused_cex :
    sPaused1.paused = true
    ∧ sPaused1.owner = 0
    ∧ pause sPaused1 0 = .error .PausedError :=
  ⟨rfl, rfl, rfl⟩

/-- C8 amended: while paused, every owner-only administrative operation
except `pause` itself remains available to the owner — ownership transfer,
add/remove submitter, unpause, cooldown configuration, and batch
open/close (subject to their own lifecycle checks) all succeed — while
re-pausing fails `PausedError`, and no submission and no decryption request
by anyone can succeed. -/
theorem admin_available_when_paused (s : ContractState)
    (hp : s.paused = true) (caller : Nat) (hc : caller = s.owner)
    (x b n : Nat) :
    (∃ s', transferOwnership s caller x = .ok s')
    ∧ (∃ s', addProvider s caller x = .ok s')
    ∧ (∃ s', removeProvider s caller x = .ok s')
    ∧ (∃ s', unpause s caller = .ok s')
    ∧ (∃ s', setCooldownSeconds s caller n = .ok s')
    ∧ (s.batchActive b = false → ∃ s', openBatch s caller b = .ok s')
    ∧ (s.batchActive b = true → ∃ s', closeBatch s caller b = .ok s')
    ∧ pause s caller = .error .PausedError
    ∧ (∀ c now amt sc s',
        submitGrantApplication s c now b amt sc ≠ .ok s')
    ∧ (∀ c now s',
        calculateAndRequestGrantAmountDecryption s c now b ≠ .ok s') := by
  subst hc
  refine ⟨?_, ?_, ?_, ?_, ?_, ?_, ?_, ?_, ?_, ?_⟩
  · exact ⟨{ s with owner := x }, by simp [transferOwnership]⟩
  · unfold addProvider
    rw [if_neg (by simp)]
    split
    · exact ⟨_, rfl⟩
    · exact ⟨_, rfl⟩
  · unfold removeProvider
    rw [if_neg (by simp)]
    split
    · exact ⟨_, rfl⟩
    · exact ⟨_, rfl⟩
  · exact ⟨{ s with paused := false }, by simp [unpause, hp]⟩
  · exact ⟨{ s with cooldownSeconds := n }, by simp [setCooldownSeconds]⟩
  · intro hb
    exact ⟨{ s with batchActive := upd s.batchActive b true },
      by simp [openBatch, hb]⟩
  · intro hb
    exact ⟨{ s with batchActive := upd s.batchActive b false },
      by simp [closeBatch, hb]⟩
  · simp [pause, hp]
  · intro c now amt sc s' h
    unfold submitGrantApplication at h
    rw [hp] at h
    split at h
    · exact Except.noConfusion h
    · exact Except.noConfusion h
  · intro c now s' h
    unfold calculateAndRequestGrantAmountDecryption at h
    rw [hp] at h
    split at h
    · exact Except.noConfusion h
    · exact Except.noConfusion h

/-- Witness for C8's amended theorem at the concretely paused state. -/
theorem admin_available_when_paused_w :
    sPaused1.paused = true
    ∧ (∃ s', unpause sPaused1 0 = .ok s')
    ∧ (∃ s', transferOwnership sPaused1 0 3 = .ok s')
    ∧ pause sPaused1 0 = .error .PausedError := by
  have h := admin_available_when_paused sPaused1 rfl 0 rfl 3 1 9
  exact ⟨rfl, h.2.2.2.1, h.1, h.2.2.2.2.2.2.2.1⟩

/-- C5: full characterization of `submitGrantApplication`. The call succeeds
iff the caller is an allowlisted submitter, the system is unpaused, the
batch is open, and the caller's submission cooldown has elapsed; each
failing case raises its specific error (checks in the contract's order:
`NotProvider`, `PausedError`, `BatchNotActive`, `CooldownActive`), and an
error is a revert, which leaves the entire state unchanged by the `Except`
semantics of this embedding. On success the batch's application is
overwritten with the two submitted handles and a zeroed
`encryptedGrantAmount`, and the caller's last-submission time becomes `now`. -/
theorem submit_characterization (s : ContractState)
    (caller now batchId : Nat) (amt sc : EH) :
    (s.isProvider caller = false →
      submitGrantApplication s caller now batchId amt sc
        = .error .NotProvider)
    ∧ (s.isProvider caller = true → s.paused = true →
      submitGrantApplication s caller now batchId amt sc
        = .error .PausedError)
    ∧ (s.isProvider caller = true → s.paused = false →
      s.batchActive batchId = false →
      submitGrantApplication s caller now batchId amt sc
        = .error .BatchNotActive)
    ∧ (s.isProvider caller = true → s.paused = false →
      s.batchActive batchId = true →
      now < s.lastSubmissionTime caller + s.cooldownSeconds →
      submitGrantApplication s caller now batchId amt sc
        = .error .CooldownActive)
    ∧ (s.isProvider caller = true → s.paused = false →
      s.batchActive batchId = true →
      ¬ now < s.lastSubmissionTime caller + s.cooldownSeconds →
      submitGrantApplication s caller now batchId amt sc
        = .ok { s with
            lastSubmissionTime := upd s.lastSubmissionTime caller now
            applications := upd s.applications batchId ⟨amt, sc, EH.uninit⟩ })
    ∧ ((∃ s', submitGrantApplication s caller now batchId amt sc = .ok s')
        ↔ s.isProvider caller = true ∧ s.paused = false
          ∧ s.batchActive batchId = true
          ∧ ¬ now < s.lastSubmissionTime caller + s.cooldownSeconds) := by
  refine ⟨?_, ?_, ?_, ?_, ?_, ?_⟩
  · intro h
    simp [submitGrantApplication, h]
  · intro h1 h2
    simp [submitGrantApplication, h1, h2]
  · intro h1 h2 h3
    simp [submitGrantApplication, h1, h2, h3]
  · intro h1 h2 h3 h4
    simp [submitGrantApplication, h1, h2, h3, h4]
  · intro h1 h2 h3 h4
    simp [submitGrantApplication, h1, h2, h3, h4]
  · constructor
    · rintro ⟨s', hs'⟩
      unfold submitGrantApplication at hs'
      split at hs'
      · exact Except.noConfusion hs'
      · split at hs'
        · exact Except.noConfusion hs'
        · split at hs'
          · exact Except.noConfusion hs'
          · split at hs'
            · exact Except.noConfusion hs'
            · rename_i h1 h2 h3 h4
              simp only [Bool.not_eq_true'] at h1 h3
              simp only [Bool.not_eq_true] at h2
              exact ⟨by simpa using h1, h2, by simpa using h3, h4⟩
    · rintro ⟨h1, h2, h3, h4⟩
      exact ⟨{ s with
          lastSubmissionTime := upd s.lastSubmissionTime caller now
          applications := upd s.applications batchId ⟨amt, sc, EH.uninit⟩ },
        by simp [submitGrantApplication, h1, h2, h3, h4]⟩

/-- Witness for C5: a success (the trace's first submission) and one
concrete instance of each failing case. -/
theorem submit_characterization_w :
    (sOpen1.isProvider 5 = false
      ∧ submitGrantApplication sOpen1 5 60 1 (EH.ext 2) (EH.ext 3)
          = .error .NotProvider)
    ∧ (submitGrantApplication sPaused1 0 60 1 (EH.ext 2) (EH.ext 3)
        = .error .PausedError)
    ∧ (submitGrantApplication sDeploy 0 60 1 (EH.ext 2) (EH.ext 3)
        = .error .BatchNotActive)
    ∧ (submitGrantApplication sOpen1 0 59 1 (EH.ext 2) (EH.ext 3)
        = .error .CooldownActive)
    ∧ (submitGrantApplication sOpen1 0 60 1 (EH.ext 2) (EH.ext 3)
        = .ok sSub1) := by
  refine ⟨⟨rfl, ?_⟩, ?_, ?_, ?_, ?_⟩
  · exact (submit_characterization sOpen1 5 60 1 (EH.ext 2) (EH.ext 3)).1 rfl
  · exact (submit_characterization sPaused1 0 60 1 (EH.ext 2)
      (EH.ext 3)).2.1 rfl rfl
  · exact (submit_characterization sDeploy 0 60 1 (EH.ext 2)
      (EH.ext 3)).2.2.1 rfl rfl rfl
  · exact (submit_characterization sOpen1 0 59 1 (EH.ext 2)
      (EH.ext 3)).2.2.2.1 rfl rfl rfl (by decide)
  · exact (submit_characterization sOpen1 0 60 1 (EH.ext 2)
      (EH.ext 3)).2.2.2.2.1 rfl rfl rfl (by decide)

/-- C4: with the owner calling, unpaused, and the request cooldown elapsed,
`calculateAndRequestGrantAmountDecryption` fails `InvalidBatch` when either
stored handle of the batch's application is uninitialized; otherwise it
stores the homomorphic product as `encryptedGrantAmount`, hashes the
serialized one-element handle list together with the contract address, and
persists `DecryptionContext{batchId, stateHash, processed := false}` keyed
by the fresh request id the oracle bridge returns (here `s.nextRequestId`),
also recording the request time. -/
theorem calc_and_request_characterization (s : ContractState)
    (caller now batchId : Nat) (hc : caller = s.owner)
    (hp : s.paused = false)
    (hcd : ¬ now < s.lastDecryptionRequestTime caller + s.cooldownSeconds) :
    ((s.applications batchId).encryptedAmount = EH.uninit
        ∨ (s.applications batchId).encryptedScore = EH.uninit →
      calculateAndRequestGrantAmountDecryption s caller now batchId
        = .error .InvalidBatch)
    ∧ ((s.applications batchId).encryptedAmount ≠ EH.uninit →
      (s.applications batchId).encryptedScore ≠ EH.uninit →
      calculateAndRequestGrantAmountDecryption s caller now batchId
        = .ok { s with
            lastDecryptionRequestTime :=
              upd s.lastDecryptionRequestTime caller now
            applications := upd s.applications batchId
              { s.applications batchId with
                  encryptedGrantAmount :=
                    EH.mul (s.applications batchId).encryptedAmount
                      (s.applications batchId).encryptedScore }
            decryptionContexts := upd s.decryptionContexts s.nextRequestId
              ⟨batchId,
               B32.hash
                 [EH.mul (s.applications batchId).encryptedAmount
                    (s.applications batchId).encryptedScore]
                 s.selfAddr,
               false⟩
            nextRequestId := s.nextRequestId + 1 }) := by
  subst hc
  constructor
  · intro h
    rcases h with h | h
    · simp [calculateAndRequestGrantAmountDecryption, hp, hcd, h]
    · simp [calculateAndRequestGrantAmountDecryption, hp, hcd, h]
  · intro h1 h2
    simp [calculateAndRequestGrantAmountDecryption, hp, hcd, h1, h2]

/-- Witness for C4: at `sOpen1` batch 1 has no application yet, so the
request fails `InvalidBatch`; at `sSub1` both handles are present, so the
request succeeds and produces exactly `sReq1`. -/
theorem calc_and_request_characterization_w :
    calculateAndRequestGrantAmountDecryption sOpen1 0 60 1
        = .error .InvalidBatch
    ∧ calculateAndRequestGrantAmountDecryption sSub1 0 60 1 = .ok sReq1 := by
  constructor
  · exact (calc_and_request_characterization sOpen1 0 60 1 rfl rfl
      (by decide)).1 (Or.inl rfl)
  · exact (calc_and_request_characterization sSub1 0 60 1 rfl rfl
      (by decide)).2 (by decide) (by decide)

/-- C10: a successful `myCallback` changes nothing but the `processed` flag
of the context stored under its request id: owner, allowlist, pause flag,
cooldown, both last-action time maps, every application, every batch
state, the request counter, the contract address, and every other
decryption context are untouched, and the hit context keeps its `batchId`
and `stateHash`. -/
theorem myCallback_frame (s s' : ContractState)
    (caller requestId cleartexts : Nat) (sigOk : Bool)
    (h : myCallback s caller requestId cleartexts sigOk = .ok s') :
    s'.owner = s.owner
    ∧ s'.isProvider = s.isProvider
    ∧ s'.paused = s.paused
    ∧ s'.cooldownSeconds = s.cooldownSeconds
    ∧ s'.lastSubmissionTime = s.lastSubmissionTime
    ∧ s'.lastDecryptionRequestTime = s.lastDecryptionRequestTime
    ∧ s'.applications = s.applications
    ∧ s'.batchActive = s.batchActive
    ∧ s'.nextRequestId = s.nextRequestId
    ∧ s'.selfAddr = s.selfAddr
    ∧ (∀ r, r ≠ requestId →
        s'.decryptionContexts r = s.decryptionContexts r)
    ∧ s'.decryptionContexts requestId
        = { s.decryptionContexts requestId with processed := true } := by
  unfold myCallback at h
  repeat' split at h
  all_goals try exact Except.noConfusion h
  have hs' := Except.ok.inj h
  subst hs'
  refine ⟨rfl, rfl, rfl, rfl, rfl, rfl, rfl, rfl, rfl, rfl, ?_, ?_⟩
  · intro r hr
    exact upd_ne _ _ _ hr
  · exact upd_same _ _ _

/-- Witness for C10: the trace's genuine callback, from `sReq1` to `sFin1`. -/
theorem myCallback_frame_w :
    myCallback sReq1 9 0 400 true = .ok sFin1
    ∧ sFin1.paused = sReq1.paused
    ∧ sFin1.applications = sReq1.applications
    ∧ sFin1.decryptionContexts 0
        = { sReq1.decryptionContexts 0 with processed := true } := by
  have h : myCallback sReq1 9 0 400 true = .ok sFin1 := rfl
  have hf := myCallback_frame sReq1 sFin1 9 0 400 true h
  exact ⟨h, hf.2.2.1, hf.2.2.2.2.2.2.1, hf.2.2.2.2.2.2.2.2.2.2.2⟩

/-- C2: state-binding. If a disclosure request is issued for batch `rb`
(successful `calculateAndRequestGrantAmountDecryption`, so its context's
`stateHash` commits to the just-derived `encryptedGrantAmount` handle), and
afterwards a `submitGrantApplication` for the same batch succeeds (which
resets `encryptedGrantAmount` to the uninitialized handle), then the
pending callback for that request id fails `StateMismatch` for every
caller, cleartext and proof verdict — proof validity is never consulted. -/
theorem state_binding (s0 s1 s2 : ContractState)
    (ow now rb c now2 : Nat) (amt sc : EH)
    (h1 : calculateAndRequestGrantAmountDecryption s0 ow now rb = .ok s1)
    (h2 : submitGrantApplication s1 c now2 rb amt sc = .ok s2)
    (caller cleartexts : Nat) (sigOk : Bool) :
    myCallback s2 caller s0.nextRequestId cleartexts sigOk
      = .error .StateMismatch := by
  unfold calculateAndRequestGrantAmountDecryption at h1
  repeat' split at h1
  all_goals try exact Except.noConfusion h1
  have hs1 := Except.ok.inj h1
  unfold submitGrantApplication at h2
  repeat' split at h2
  all_goals try exact Except.noConfusion h2
  have hs2 := Except.ok.inj h2
  subst hs2
  subst hs1
  simp [myCallback, upd]

/-- Witness for C2: the trace's request (id 0) followed by the overwriting
submission at t = 200; the late callback then fails `StateMismatch` even
with a valid proof. -/
theorem state_binding_w :
    calculateAndRequestGrantAmountDecryption sSub1 0 60 1 = .ok sReq1
    ∧ submitGrantApplication sReq1 0 200 1 (EH.ext 8) (EH.ext 9)
        = .ok sOver1
    ∧ myCallback sOver1 9 sSub1.nextRequestId 400 true
        = .error .StateMismatch :=
  ⟨rfl, rfl,
   state_binding sSub1 sReq1 sOver1 0 60 1 0 200 (EH.ext 8) (EH.ext 9)
     rfl rfl 9 400 true⟩

/-- How any successful external call can touch the `decryptionContexts` map
and the bridge counter: not at all; or (a disclosure request) writing an
unprocessed context at the bridge's fresh id and bumping the counter; or
(a callback) flipping `processed` to `true` on a context that was
unprocessed and whose stored `stateHash` is a real keccak image. -/
theorem step_contexts_shape (o : Op) (s s' : ContractState)
    (h : applyOp o s = .ok s') :
    (s'.decryptionContexts = s.decryptionContexts
      ∧ s'.nextRequestId = s.nextRequestId)
    ∨ (∃ b hb, s'.nextRequestId = s.nextRequestId + 1
        ∧ s'.decryptionContexts
            = upd s.decryptionContexts s.nextRequestId ⟨b, hb, false⟩)
    ∨ (∃ rid, (s.decryptionContexts rid).processed = false
        ∧ (∃ cts self,
            (s.decryptionContexts rid).stateHash = B32.hash cts self)
        ∧ s'.nextRequestId = s.nextRequestId
        ∧ s'.decryptionContexts
            = upd s.decryptionContexts rid
                { s.decryptionContexts rid with processed := true }) := by
  cases o with
  | transferOwnership c n =>
      simp only [applyOp] at h
      unfold transferOwnership at h
      repeat' split at h
      all_goals try exact Except.noConfusion h
      all_goals (have hs := Except.ok.inj h; subst hs; exact Or.inl ⟨rfl, rfl⟩)
  | addProvider c p =>
      simp only [applyOp] at h
      unfold addProvider at h
      repeat' split at h
      all_goals try exact Except.noConfusion h
      all_goals (have hs := Except.ok.inj h; subst hs; exact Or.inl ⟨rfl, rfl⟩)
  | removeProvider c p =>
      simp only [applyOp] at h
      unfold removeProvider at h
      repeat' split at h
      all_goals try exact Except.noConfusion h
      all_goals (have hs := Except.ok.inj h; subst hs; exact Or.inl ⟨rfl, rfl⟩)
  | pause c =>
      simp only [applyOp] at h
      unfold pause at h
      repeat' split at h
      all_goals try exact Except.noConfusion h
      all_goals (have hs := Except.ok.inj h; subst hs; exact Or.inl ⟨rfl, rfl⟩)
  | unpause c =>
      simp only [applyOp] at h
      unfold unpause at h
      repeat' split at h
      all_goals try exact Except.noConfusion h
      all_goals (have hs := Except.ok.inj h; subst hs; exact Or.inl ⟨rfl, rfl⟩)
  | setCooldownSeconds c n =>
      simp only [applyOp] at h
      unfold setCooldownSeconds at h
      repeat' split at h
      all_goals try exact Except.noConfusion h
      all_goals (have hs := Except.ok.inj h; subst hs; exact Or.inl ⟨rfl, rfl⟩)
  | openBatch c b =>
      simp only [applyOp] at h
      unfold openBatch at h
      repeat' split at h
      all_goals try exact Except.noConfusion h
      all_goals (have hs := Except.ok.inj h; subst hs; exact Or.inl ⟨rfl, rfl⟩)
  | closeBatch c b =>
      simp only [applyOp] at h
      unfold closeBatch at h
      repeat' split at h
      all_goals try exact Except.noConfusion h
      all_goals (have hs := Except.ok.inj h; subst hs; exact Or.inl ⟨rfl, rfl⟩)
  | submitGrantApplication c now b amt sc =>
      simp only [applyOp] at h
      unfold submitGrantApplication at h
      repeat' split at h
      all_goals try exact Except.noConfusion h
      all_goals (have hs := Except.ok.inj h; subst hs; exact Or.inl ⟨rfl, rfl⟩)
  | calcAndRequest c now b =>
      simp only [applyOp] at h
      unfold calculateAndRequestGrantAmountDecryption at h
      repeat' split at h
      all_goals try exact Except.noConfusion h
      have hs := Except.ok.inj h
      subst hs
      exact Or.inr (Or.inl ⟨b, _, rfl, rfl⟩)
  | myCallback c rid ct sig =>
      simp only [applyOp] at h
      unfold myCallback at h
      split at h
      · exact Except.noConfusion h
      · split at h
        · exact Except.noConfusion h
        · split at h
          · rename_i hpr hmis _
            have hs := Except.ok.inj h
            subst hs
            refine Or.inr (Or.inr ⟨rid, ?_, ?_, rfl, rfl⟩)
            · simpa using hpr
            · exact ⟨_, _, (not_ne_iff.mp hmis).symm⟩
          · exact Except.noConfusion h

/-- The bridge-freshness invariant holds right after deployment. -/
theorem freshInv_init (d a : Nat) : FreshInv (initState d a) :=
  fun _ _ => rfl

/-- Every successful call preserves the bridge-freshness invariant: a
request writes only at the fresh id (which held the default slot), and a
callback can only finalize a context whose stored hash is a real keccak
image, hence one that was actually persisted (id below the counter). -/
theorem freshInv_step {s s' : ContractState} (hInv : FreshInv s)
    (hstep : SucStep s s') : FreshInv s' := by
  obtain ⟨o, h⟩ := hstep
  rcases step_contexts_shape o s s' h with
    ⟨hc, hn⟩ | ⟨b, hb, hn, hc⟩ | ⟨rid, hpr, ⟨cts, self, hsh⟩, hn, hc⟩
  · intro id hid
    rw [hn] at hid
    rw [hc]
    exact hInv id hid
  · intro id hid
    rw [hn] at hid
    rw [hc, upd_ne _ _ _ (by omega)]
    exact hInv id (by omega)
  · intro id hid
    rw [hn] at hid
    have hrid : ¬ s.nextRequestId ≤ rid := by
      intro hle
      rw [hInv rid hle] at hsh
      exact B32.noConfusion hsh
    rw [hc, upd_ne _ _ _ (by omega)]
    exact hInv id hid

/-- Under the freshness invariant, no successful call ever resets a
`processed` flag: the flag is monotonic false-to-true. -/
theorem processed_mono_step {s s' : ContractState} (hInv : FreshInv s)
    (hstep : SucStep s s') (id : Nat)
    (hp : (s.decryptionContexts id).processed = true) :
    (s'.decryptionContexts id).processed = true := by
  obtain ⟨o, h⟩ := hstep
  rcases step_contexts_shape o s s' h with
    ⟨hc, _⟩ | ⟨b, hb, hn, hc⟩ | ⟨rid, hpr, _, _, hc⟩
  · rw [hc]
    exact hp
  · rw [hc]
    by_cases hid : id = s.nextRequestId
    · subst hid
      rw [hInv s.nextRequestId le_rfl] at hp
      exact Bool.noConfusion hp
    · rw [upd_ne _ _ _ hid]
      exact hp
  · rw [hc]
    by_cases hid : id = rid
    · subst hid
      rw [upd_same]
    · rw [upd_ne _ _ _ hid]
      exact hp

/-- The freshness invariant propagates along any sequence of successful calls. -/
theorem reach_freshInv {s s' : ContractState} (h : Reach s s')
    (hInv : FreshInv s) : FreshInv s' := by
  induction h with
  | refl => exact hInv
  | tail _ hstep ih => exact freshInv_step ih hstep

/-- A `processed` flag, once true, stays true along any sequence of
successful calls (given the freshness invariant at the start). -/
theorem reach_processed_mono {s s' : ContractState} (h : Reach s s')
    (hInv : FreshInv s) (id : Nat)
    (hp : (s.decryptionContexts id).processed = true) :
    (s'.decryptionContexts id).processed = true := by
  induction h with
  | refl => exact hp
  | tail hr hstep ih =>
      exact processed_mono_step (reach_freshInv hr hInv) hstep id ih

/-- C1: exactly-once finalization. In any state reachable from deployment,
once a request id's context has `processed = true` (set by one successful
callback), every further `myCallback` with that id fails `ReplayAttempt`
(for all callers, cleartexts and proof verdicts — a revert changes no
state), and `processed` stays true in every further reachable state: no
operation ever resets it (the oracle bridge never reuses a live id, which
the `nextRequestId` counter models). -/
theorem exactly_once_finalization (d a : Nat) (s : ContractState)
    (hreach : Reach (initState d a) s) (requestId : Nat)
    (hp : (s.decryptionContexts requestId).processed = true) :
    (∀ caller cleartexts sigOk,
      myCallback s caller requestId cleartexts sigOk
        = .error .ReplayAttempt)
    ∧ ∀ s', Reach s s' →
        (s'.decryptionContexts requestId).processed = true := by
  constructor
  · intro caller cleartexts sigOk
    simp [myCallback, hp]
  · intro s' hr
    exact reach_processed_mono hr
      (reach_freshInv hreach (freshInv_init d a)) requestId hp

/-- Witness for C1: the deployment trace reaching `sFin1`, whose request 0
is processed; the repeat callback with identical arguments replays. -/
theorem exactly_once_finalization_w :
    (sFin1.decryptionContexts 0).processed = true
    ∧ myCallback sFin1 9 0 400 true = .error .ReplayAttempt := by
  have h1 : Reach (initState 0 7) sOpen1 :=
    Relation.ReflTransGen.single ⟨Op.openBatch 0 1, rfl⟩
  have h2 : Reach (initState 0 7) sSub1 :=
    Relation.ReflTransGen.tail h1
      ⟨Op.submitGrantApplication 0 60 1 (.ext 2) (.ext 3), rfl⟩
  have h3 : Reach (initState 0 7) sReq1 :=
    Relation.ReflTransGen.tail h2 ⟨Op.calcAndRequest 0 60 1, rfl⟩
  have hr : Reach (initState 0 7) sFin1 :=
    Relation.ReflTransGen.tail h3 ⟨Op.myCallback 9 0 400 true, rfl⟩
  exact ⟨rfl, (exactly_once_finalization 0 7 sFin1 hr 0 rfl).1 9 400 true⟩
